import Mathlib

/-!
Shallow embedding of `router.go` from the sharexhandler repository.

The two HTTP handlers, `handleUploadRequest` and `handleGetRequest`, are
embedded as pure functions from an environment (the request data together
with the responses of the external collaborators: the mime parser, the
multipart reader, the storage backend, the read/write sinks and the client
connection) to a trace of observable events (storage calls, header writes,
status writes, body writes, sink writes, closes, and runtime faults).

Conventions of the embedding:
- `http.Error w msg code` is modelled as a `status` event followed by a
  `body` event carrying the message plus the trailing newline that
  `http.Error` appends.  Its header side effects are elided.
- A Go `panic` is modelled as the event `Ev.fault` ending the trace of the
  handler body; a deferred `writer.Close()` still runs during unwinding, so
  the upload handler appends `Ev.closeWriter` after the inner trace
  unconditionally, exactly like `defer` (router.go line 67).
- Go byte indices are modelled as character indices; every string the
  claims touch is ASCII, and the only needle is the one-byte ".".
- `strings.EqualFold` is modelled as equality after `String.toLower`
  (ASCII case folding, which is all the claims exercise).
- The `OutgoingFunction` hook is opaque to every claim and is elided.
-/

namespace ShareX

/-- Observable events of a handler invocation:  calls into the storage
collaborator, writes to the entry's write sink, response header/status/body
writes, resource closes, and runtime faults (Go panics). -/
inductive Ev where
  | newEntry : Ev
  | save : Ev
  | getWriter : Ev
  | setContentType : String → Ev
  | setFilename : String → Ev
  | sinkWrite : List Nat → Bool → Ev
  | update : Ev
  | closeWriter : Ev
  | getReader : Ev
  | closeReader : Ev
  | setHeader : String → String → Ev
  | status : Nat → Ev
  | body : String → Ev
  | bodyBytes : List Nat → Ev
  | fault : Ev
  deriving DecidableEq

/-- The configuration fields of `ShareXHandler` (router.go lines 22-37) that
the two request handlers read. -/
structure Handler where
  protocolHost : String
  bufferSize : Nat
  whitelistedContentTypes : List String

/-- One multipart part as delivered by `multipartReader.NextPart`, together
with the outcome of the collaborator calls made while processing it:
`copyErr` is whether `io.Copy(buf, part)` fails (router.go line 81), and
`sinkErr` is the error value returned by `writer.Write(buf.Bytes())`
(router.go line 85) — the source discards that return value. -/
structure Part where
  contentType : String
  filename : String
  content : List Nat
  copyErr : Bool
  sinkErr : Bool
  deriving DecidableEq

/-- Environment of one upload request: the outcome of
`mime.ParseMediaType` on the Content-Type header, the storage
collaborator's answers (`Save`, `GetId`, `GetWriter`, `Update`), and the
multipart stream: the successfully delivered parts followed by a terminal
`NextPart` result (`tailErr = true` for a non-EOF error, `false` for
`io.EOF`). -/
structure UploadEnv where
  mediaTypeOk : Bool
  saveErr : Bool
  entryId : String
  getWriterErr : Bool
  parts : List Part
  tailErr : Bool
  updateErr : Bool

/-- Metadata of a stored entry as returned by the storage collaborator's
getters (`GetFilename`, `GetContentType`, `GetETagValue`). -/
structure StorageEntry where
  filename : String
  contentType : String
  etagValue : String
  deriving DecidableEq

/-- Environment of one download request: the mux path variable `id`, the
If-None-Match header (`none` when absent), the storage lookup outcome, the
`GetReader` outcome, and the read stream: the successful reads (each chunk
paired with whether the client-side `w.Write` of that chunk fails) followed
by a terminal read (`readEndErr = true` for a non-EOF error, `false` for
end of stream). -/
structure GetEnv where
  pathId : String
  ifNoneMatch : Option String
  lookupErr : Bool
  found : Bool
  entry : StorageEntry
  getReaderErr : Bool
  readChunks : List (List Nat × Bool)
  readEndErr : Bool

/-- Model of `strings.LastIndex(s, ".")` : the index of the last `'.'`, `-1` if none. -/
def lastIndexOfDot : List Char → Int
  | [] => -1
  | c :: cs =>
      let r := lastIndexOfDot cs
      if 0 ≤ r then r + 1 else if c = '.' then 0 else -1

/-- Go slice expression `s[i:]` : defined (as `some`) exactly when
`0 ≤ i ≤ len s`; out of that range Go panics with an out-of-range error,
modelled as `none`. -/
def goSliceFrom (cs : List Char) (i : Int) : Option (List Char) :=
  if 0 ≤ i ∧ i ≤ (cs.length : Int) then some (cs.drop i.toNat) else none

/-- Go slice expression `s[:i]` : defined (as `some`) exactly when
`0 ≤ i ≤ len s`; otherwise Go panics, modelled as `none`. -/
def goSliceTo (cs : List Char) (i : Int) : Option (List Char) :=
  if 0 ≤ i ∧ i ≤ (cs.length : Int) then some (cs.take i.toNat) else none

/-- The upload URL's extension as the source computes it:
`entry.GetFilename()[strings.LastIndex(entry.GetFilename(), "."):]`
(router.go line 101). -/
def deriveExt (s : String) : Option String :=
  (goSliceFrom s.data (lastIndexOfDot s.data)).map String.mk

/-- The download id as the source computes it:
`id[:strings.LastIndex(id, ".")]` (router.go line 119). -/
def stripId (s : String) : Option String :=
  (goSliceTo s.data (lastIndexOfDot s.data)).map String.mk

/-- Spec-worded definition of the "final dot-suffix of the filename
(including the dot)": the suffix that starts at the last occurrence of
`'.'`, or `none` when the string has no dot.  Written from the spec's
words, to be compared with the source-derived `deriveExt`. -/
def lastDotSuffix : List Char → Option (List Char)
  | [] => none
  | c :: cs =>
      match lastDotSuffix cs with
      | some t => some t
      | none => if c = '.' then some (c :: cs) else none

/-- Trace of `http.Error(w, "500 an internal error occurred", 500)`. -/
def internalError : List Ev :=
  [Ev.status 500, Ev.body "500 an internal error occurred\n"]

/-- The upload copy loop (router.go lines 78-94).  Each part still pending
is copied whole into the in-memory `bytes.Buffer` by `io.Copy` (a copy
failure is 500 + panic), then the buffer's entire contents are passed to
`writer.Write` in one call whose returned error `p.sinkErr` the source
ignores.  When the parts run out, the terminal `NextPart` result either
ends the loop (`io.EOF`) or is 500 + panic. -/
def partsLoop : List Part → Bool → List Ev
  | [], tailErr => if tailErr then internalError ++ [Ev.fault] else []
  | p :: rest, tailErr =>
      if p.copyErr then internalError ++ [Ev.fault]
      else Ev.sinkWrite p.content p.sinkErr :: partsLoop rest tailErr

/-- Whether the copy loop reaches its normal `break` (no copy error and the
terminal `NextPart` result is `io.EOF`). -/
def partsLoopOk : List Part → Bool → Bool
  | [], tailErr => !tailErr
  | p :: rest, tailErr => !p.copyErr && partsLoopOk rest tailErr

/-- Trace of the upload handler from the first successful `NextPart` on
(router.go lines 75-103): record the first part's Content-Type and
filename, run the copy loop, and if it breaks normally finalize with
`entry.Update()`; on success write status 200 and then build the URL, whose
extension derivation panics when the recorded filename has no dot. -/
def uploadBody (h : Handler) (env : UploadEnv) (p : Part) (rest : List Part) : List Ev :=
  Ev.setContentType p.contentType :: Ev.setFilename p.filename ::
    (partsLoop (p :: rest) env.tailErr ++
      (if partsLoopOk (p :: rest) env.tailErr then
        Ev.update ::
          (if env.updateErr then internalError ++ [Ev.fault]
           else Ev.status 200 ::
             (match deriveExt p.filename with
              | some ext => [Ev.body (h.protocolHost ++ env.entryId ++ ext)]
              | none => [Ev.fault]))
       else []))

/-- The upload handler `handleUploadRequest` (router.go lines 47-108) as a
trace of events.  An empty `env.parts` means the very first `NextPart`
returned a non-nil result (either `io.EOF` or an error), which the source
treats as 500 + panic either way (line 71).  The deferred `writer.Close()`
runs on every exit after the writer is acquired, panics included. -/
def handleUploadRequest (h : Handler) (env : UploadEnv) : List Ev :=
  if !env.mediaTypeOk then [Ev.status 400, Ev.body "400 bad request\n"]
  else
    Ev.newEntry :: Ev.save ::
      (if env.saveErr then internalError ++ [Ev.fault]
       else Ev.getWriter ::
         (if env.getWriterErr then internalError ++ [Ev.fault]
          else
            (match env.parts with
             | [] => internalError ++ [Ev.fault]
             | p :: rest => uploadBody h env p rest) ++ [Ev.closeWriter]))

/-- Model of `req.Header.Get(k)` : Go returns the empty string when the
header is absent. -/
def headerGet : Option String → String
  | none => ""
  | some s => s

/-- Model of `strings.EqualFold`, restricted to ASCII case folding. -/
def eqFold (a b : String) : Bool := a.toLower == b.toLower

/-- The whitelist scan of router.go lines 133-140: `"inline"` when some
whitelisted content type equals the entry's content type case-insensitively
(the `goto inlinePassed` path), `"attachment"` otherwise. -/
def decideDisposition (whitelist : List String) (ct : String) : String :=
  if whitelist.any (fun v => eqFold v ct) then "inline" else "attachment"

/-- Model of `fmt.Sprintf` applied to `dispositionValueFormat` (router.go
line 110). -/
def dispositionValue (d fn : String) : String :=
  d ++ "; filename=\"" ++ fn ++ "\""

/-- The download streaming loop (router.go lines 144-157): each successful
read chunk is written to the client (a client write error panics after the
attempted write); the terminal read either ends the loop (`n == 0` with nil
or `io.EOF` error) or is a non-EOF read error: 500 + panic, with the
erroring read's bytes never written. -/
def streamLoop : List (List Nat × Bool) → Bool → List Ev
  | [], endErr => if endErr then internalError ++ [Ev.fault] else []
  | (c, wErr) :: rest, endErr =>
      if wErr then [Ev.bodyBytes c, Ev.fault]
      else Ev.bodyBytes c :: streamLoop rest endErr

/-- The download handler `handleGetRequest` (router.go lines 113-159) as a
trace of events.  The id stripping panics on a path id without a dot; the
If-None-Match comparison uses Go's empty-string default for an absent
header; the acquired reader is never closed anywhere in the source. -/
def handleGetRequest (h : Handler) (env : GetEnv) : List Ev :=
  match stripId env.pathId with
  | none => [Ev.fault]
  | some _ =>
    if env.lookupErr then internalError ++ [Ev.fault]
    else if !env.found then [Ev.status 404, Ev.body "404 page not found\n"]
    else if headerGet env.ifNoneMatch == env.entry.etagValue then [Ev.status 304]
    else
      Ev.getReader ::
        (if env.getReaderErr then internalError ++ [Ev.fault]
         else
           Ev.setHeader "Content-Disposition"
               (dispositionValue
                 (decideDisposition h.whitelistedContentTypes env.entry.contentType)
                 env.entry.filename) ::
             Ev.setHeader "Content-Type" env.entry.contentType ::
             Ev.setHeader "ETag" env.entry.etagValue ::
             Ev.status 200 ::
             streamLoop env.readChunks env.readEndErr)

/-- The HTTP status codes written in a trace, in order. -/
def statuses : List Ev → List Nat
  | [] => []
  | Ev.status n :: t => n :: statuses t
  | _ :: t => statuses t

/-- The string bodies written in a trace, in order. -/
def bodies : List Ev → List String
  | [] => []
  | Ev.body s :: t => s :: bodies t
  | _ :: t => bodies t

/-- The streamed body chunks written in a trace, in order. -/
def bodyChunks : List Ev → List (List Nat)
  | [] => []
  | Ev.bodyBytes c :: t => c :: bodyChunks t
  | _ :: t => bodyChunks t

/-- The sizes of the chunks handed to the entry's write sink; each such
chunk sat whole in the intermediate `bytes.Buffer` at the moment of the
write, so the largest of them is the peak occupancy of that buffer. -/
def sinkChunkSizes : List Ev → List Nat
  | [] => []
  | Ev.sinkWrite c _ :: t => c.length :: sinkChunkSizes t
  | _ :: t => sinkChunkSizes t

/-- Peak occupancy (in bytes) of the upload path's intermediate buffer. -/
def bufferPeak (evs : List Ev) : Nat :=
  (sinkChunkSizes evs).foldr max 0

/-- Holds (as `true`) when the header `k` is set to value `v` somewhere in the trace
strictly before any body write (string body or streamed chunk). -/
def headerBeforeBody (evs : List Ev) (k v : String) : Bool :=
  match evs with
  | [] => false
  | Ev.bodyBytes _ :: _ => false
  | Ev.body _ :: _ => false
  | Ev.setHeader a b :: rest =>
      (a == k && b == v) || headerBeforeBody rest k v
  | _ :: rest => headerBeforeBody rest k v

/-- Example handler configuration, as in the source's documented defaults. -/
def hW : Handler :=
  { protocolHost := "http://localhost:8080/"
    bufferSize := 1024
    whitelistedContentTypes := ["image/png"] }

/-- Example part: a successfully copied and written png upload. -/
def partW : Part :=
  { contentType := "image/png", filename := "photo.png"
    content := [1, 2, 3], copyErr := false, sinkErr := false }

/-- Example upload environment where everything succeeds. -/
def envW : UploadEnv :=
  { mediaTypeOk := true, saveErr := false, entryId := "abc"
    getWriterErr := false, parts := [partW], tailErr := false
    updateErr := false }

/-- Example upload environment whose Content-Type fails media-type parsing. -/
def envBad : UploadEnv := { envW with mediaTypeOk := false }

/-- Example part whose filename has no dot. -/
def partNoDot : Part := { partW with filename := "noext" }

/-- Example upload environment that succeeds but records a dotless filename. -/
def envNoDot : UploadEnv := { envW with parts := [partNoDot] }

/-- Example part whose single sink write returns an error (which the source
discards). -/
def partSinkErr : Part := { partW with content := [7], sinkErr := true }

/-- Example upload environment whose only sink write fails. -/
def envSinkErr : UploadEnv := { envW with parts := [partSinkErr] }

/-- Example handler configured with a 2-byte streaming buffer. -/
def hSmall : Handler :=
  { protocolHost := "http://localhost:8080/"
    bufferSize := 2
    whitelistedContentTypes := [] }

/-- Example part whose content (3 bytes) exceeds `hSmall.bufferSize`. -/
def partBig : Part :=
  { contentType := "image/png", filename := "a.png"
    content := [0, 0, 0], copyErr := false, sinkErr := false }

/-- Example upload environment delivering the 3-byte part. -/
def envBig : UploadEnv := { envW with parts := [partBig] }

/-- Example stored entry. -/
def entryW : StorageEntry :=
  { filename := "photo.png", contentType := "image/png", etagValue := "etag1" }

/-- Example download environment where everything succeeds. -/
def envGetW : GetEnv :=
  { pathId := "abc.png", ifNoneMatch := none, lookupErr := false
    found := true, entry := entryW, getReaderErr := false
    readChunks := [([9], false)], readEndErr := false }

/-- Example download environment whose path id has no dot. -/
def envGetNoDot : GetEnv := { envGetW with pathId := "noext" }

/-- Example download environment whose If-None-Match equals the ETag. -/
def envGet304 : GetEnv := { envGetW with ifNoneMatch := some "etag1" }

/-- Example entry whose ETag is the empty string. -/
def entryEmptyEtag : StorageEntry := { entryW with etagValue := "" }

/-- Example download environment: absent If-None-Match, empty ETag. -/
def envGetEmptyEtag : GetEnv := { envGetW with entry := entryEmptyEtag }

/-- Index `strings.LastIndex` never reaches the length of the string. -/
theorem lastIndexOfDot_lt (cs : List Char) : lastIndexOfDot cs < (cs.length : Int) := by
  induction cs with
  | nil => norm_num [lastIndexOfDot]
  | cons c cs ih =>
      simp only [lastIndexOfDot, List.length_cons]
      split
      · push_cast
        omega
      · split <;> push_cast <;> omega

/-- The source's extension computation — drop at `strings.LastIndex` —
agrees with the spec-worded final-dot-suffix on every string: defined with
the same value when a dot exists, undefined (out-of-range slice) when
not. -/
theorem goSliceFrom_lastIndexOfDot (cs : List Char) :
    goSliceFrom cs (lastIndexOfDot cs) = lastDotSuffix cs := by
  induction cs with
  | nil => simp [goSliceFrom, lastIndexOfDot, lastDotSuffix]
  | cons c cs ih =>
      by_cases hr : 0 ≤ lastIndexOfDot cs
      · have hlt := lastIndexOfDot_lt cs
        have hsome : lastDotSuffix cs = some (cs.drop (lastIndexOfDot cs).toNat) := by
          rw [← ih]
          simp [goSliceFrom, hr, le_of_lt hlt]
        have h1 : lastIndexOfDot (c :: cs) = lastIndexOfDot cs + 1 := by
          simp [lastIndexOfDot, hr]
        rw [h1]
        simp only [lastDotSuffix, hsome]
        unfold goSliceFrom
        rw [if_pos]
        · have h2 : (lastIndexOfDot cs + 1).toNat = (lastIndexOfDot cs).toNat + 1 := by
            omega
          rw [h2]
          simp
        · refine ⟨by omega, ?_⟩
          simp only [List.length_cons]
          push_cast
          omega
      · have hnone : lastDotSuffix cs = none := by
          rw [← ih]
          unfold goSliceFrom
          rw [if_neg]
          intro h
          exact hr h.1
        by_cases hc : c = '.'
        · simp only [lastIndexOfDot, hr, hc, if_false, if_true, if_neg, if_pos,
            goSliceFrom, lastDotSuffix, hnone]
          rw [if_pos]
          · simp
          · refine ⟨le_refl 0, ?_⟩
            simp only [List.length_cons]
            push_cast
            omega
        · simp [lastIndexOfDot, hr, hc, goSliceFrom, lastDotSuffix, hnone]

/-- Derivation `deriveExt` re-expressed through the spec-worded suffix. -/
theorem deriveExt_eq_lastDotSuffix (s : String) :
    deriveExt s = (lastDotSuffix s.data).map String.mk := by
  unfold deriveExt
  rw [goSliceFrom_lastIndexOfDot]

/-- When the copy loop breaks normally, its trace is exactly one sink write
per part, each carrying the part's whole content. -/
theorem partsLoop_of_ok (ps : List Part) (te : Bool) (h : partsLoopOk ps te = true) :
    partsLoop ps te = ps.map fun p => Ev.sinkWrite p.content p.sinkErr := by
  induction ps with
  | nil =>
      simp only [partsLoopOk, Bool.not_eq_true'] at h
      simp [partsLoop, h]
  | cons p rest ih =>
      simp only [partsLoopOk, Bool.and_eq_true, Bool.not_eq_true'] at h
      simp [partsLoop, h.1, ih h.2]

/-- Projection `statuses` distributes over trace concatenation. -/
theorem statuses_append (a b : List Ev) :
    statuses (a ++ b) = statuses a ++ statuses b := by
  induction a with
  | nil => rfl
  | cons e t ih => cases e <;> simp [statuses, ih]

/-- Projection `bodies` distributes over trace concatenation. -/
theorem bodies_append (a b : List Ev) :
    bodies (a ++ b) = bodies a ++ bodies b := by
  induction a with
  | nil => rfl
  | cons e t ih => cases e <;> simp [bodies, ih]

/-- Sink writes contribute no status codes. -/
theorem statuses_map_sinkWrite (ps : List Part) :
    statuses (ps.map fun p => Ev.sinkWrite p.content p.sinkErr) = [] := by
  induction ps with
  | nil => rfl
  | cons p rest ih => simp [statuses, ih]

/-- Sink writes contribute no string bodies. -/
theorem bodies_map_sinkWrite (ps : List Part) :
    bodies (ps.map fun p => Ev.sinkWrite p.content p.sinkErr) = [] := by
  induction ps with
  | nil => rfl
  | cons p rest ih => simp [bodies, ih]

/-- Any chunk handed to the write sink bounds the buffer peak from below. -/
theorem length_le_bufferPeak (c : List Nat) (b : Bool) (evs : List Ev)
    (hmem : Ev.sinkWrite c b ∈ evs) : c.length ≤ bufferPeak evs := by
  induction evs with
  | nil => cases hmem
  | cons e t ih =>
      rcases List.mem_cons.mp hmem with he | ht
      · rw [← he]
        simp only [bufferPeak, sinkChunkSizes, List.foldr_cons]
        exact Nat.le_max_left _ _
      · refine le_trans (ih ht) ?_
        cases e <;> simp only [bufferPeak, sinkChunkSizes, List.foldr_cons] <;>
          first
          | exact le_refl _
          | exact Nat.le_max_right _ _

/-- C1: for every successful upload (media type parsed, entry allocated,
writer acquired, all parts copied, entry finalized) whose recorded filename
has a final dot-suffix `ext`, `handleUploadRequest` responds with exactly
one status, `200`, and exactly one body, equal to `ProtocolHost` followed
by the entry's id followed by `ext` (dot included). -/
theorem upload_success_response (h : Handler) (env : UploadEnv) (p : Part)
    (rest : List Part) (ext : List Char)
    (hparts : env.parts = p :: rest)
    (hmt : env.mediaTypeOk = true)
    (hsv : env.saveErr = false)
    (hgw : env.getWriterErr = false)
    (hloop : partsLoopOk (p :: rest) env.tailErr = true)
    (hupd : env.updateErr = false)
    (hext : lastDotSuffix p.filename.data = some ext) :
    statuses (handleUploadRequest h env) = [200] ∧
    bodies (handleUploadRequest h env) =
      [h.protocolHost ++ env.entryId ++ String.mk ext] := by
  have hde : deriveExt p.filename = some (String.mk ext) := by
    rw [deriveExt_eq_lastDotSuffix, hext]
    rfl
  have htr : handleUploadRequest h env =
      Ev.newEntry :: Ev.save :: Ev.getWriter :: Ev.setContentType p.contentType ::
        Ev.setFilename p.filename ::
        (((p :: rest).map fun q => Ev.sinkWrite q.content q.sinkErr) ++
          [Ev.update, Ev.status 200,
            Ev.body (h.protocolHost ++ env.entryId ++ String.mk ext),
            Ev.closeWriter]) := by
    simp [handleUploadRequest, uploadBody, hparts, hmt, hsv, hgw, hupd, hloop,
      partsLoop_of_ok _ _ hloop, hde]
  rw [htr]
  constructor
  · simp [statuses, statuses_append, statuses_map_sinkWrite]
  · simp [bodies, bodies_append, bodies_map_sinkWrite]

/-- C1 witness: a concrete fully successful upload of `photo.png` yields
status 200 and body `http://localhost:8080/abc.png`. -/
theorem upload_success_response_witness :
    statuses (handleUploadRequest hW envW) = [200] ∧
    bodies (handleUploadRequest hW envW) =
      [hW.protocolHost ++ envW.entryId ++ String.mk ".png".data] :=
  upload_success_response hW envW partW [] ".png".data rfl rfl rfl rfl
    (by decide) rfl (by decide)

/-- C8: for every upload request whose Content-Type header fails media-type
parsing, `handleUploadRequest` responds 400 with the bad-request body and
invokes neither `NewStorageEntry` nor `Save`. -/
theorem upload_badMediaType_no_entry (h : Handler) (env : UploadEnv)
    (hmt : env.mediaTypeOk = false) :
    handleUploadRequest h env = [Ev.status 400, Ev.body "400 bad request\n"] ∧
    Ev.newEntry ∉ handleUploadRequest h env ∧
    Ev.save ∉ handleUploadRequest h env := by
  have htr : handleUploadRequest h env =
      [Ev.status 400, Ev.body "400 bad request\n"] := by
    simp [handleUploadRequest, hmt]
  refine ⟨htr, ?_, ?_⟩ <;> rw [htr] <;> decide

/-- C8 witness: a concrete upload with unparseable Content-Type gets 400
and no storage calls. -/
theorem upload_badMediaType_no_entry_witness :
    handleUploadRequest hW envBad = [Ev.status 400, Ev.body "400 bad request\n"] ∧
    Ev.newEntry ∉ handleUploadRequest hW envBad ∧
    Ev.save ∉ handleUploadRequest hW envBad :=
  upload_badMediaType_no_entry hW envBad rfl

/-- C9: when an upload finalizes successfully but the recorded filename has
no dot, the handler has already written status 200 before the extension
derivation faults: the trace carries exactly status 200, no body at all,
and a runtime fault. -/
theorem upload_200_committed_before_url (h : Handler) (env : UploadEnv)
    (p : Part) (rest : List Part)
    (hparts : env.parts = p :: rest)
    (hmt : env.mediaTypeOk = true)
    (hsv : env.saveErr = false)
    (hgw : env.getWriterErr = false)
    (hloop : partsLoopOk (p :: rest) env.tailErr = true)
    (hupd : env.updateErr = false)
    (hext : lastDotSuffix p.filename.data = none) :
    statuses (handleUploadRequest h env) = [200] ∧
    bodies (handleUploadRequest h env) = [] ∧
    Ev.fault ∈ handleUploadRequest h env := by
  have hde : deriveExt p.filename = none := by
    rw [deriveExt_eq_lastDotSuffix, hext]
    rfl
  have htr : handleUploadRequest h env =
      Ev.newEntry :: Ev.save :: Ev.getWriter :: Ev.setContentType p.contentType ::
        Ev.setFilename p.filename ::
        (((p :: rest).map fun q => Ev.sinkWrite q.content q.sinkErr) ++
          [Ev.update, Ev.status 200, Ev.fault, Ev.closeWriter]) := by
    simp [handleUploadRequest, uploadBody, hparts, hmt, hsv, hgw, hupd, hloop,
      partsLoop_of_ok _ _ hloop, hde]
  rw [htr]
  refine ⟨?_, ?_, ?_⟩
  · simp [statuses, statuses_append, statuses_map_sinkWrite]
  · simp [bodies, bodies_append, bodies_map_sinkWrite]
  · simp

/-- C9 witness: a concrete successful upload recording filename `noext`
ends with status 200 already sent, an empty body, and a fault. -/
theorem upload_200_committed_before_url_witness :
    statuses (handleUploadRequest hW envNoDot) = [200] ∧
    bodies (handleUploadRequest hW envNoDot) = [] ∧
    Ev.fault ∈ handleUploadRequest hW envNoDot :=
  upload_200_committed_before_url hW envNoDot partNoDot [] rfl rfl rfl rfl
    (by decide) rfl (by decide)

/-- C3: for every download of a found entry whose If-None-Match does not
match the ETag and whose reader is acquired, the handler sets
Content-Disposition — `inline` with the entry's filename when the entry's
content type equals some whitelist element case-insensitively,
`attachment` with the filename otherwise — before any body bytes are
written. -/
theorem get_disposition_policy (h : Handler) (env : GetEnv)
    (hstrip : (stripId env.pathId).isSome = true)
    (hlk : env.lookupErr = false)
    (hfound : env.found = true)
    (hnm : headerGet env.ifNoneMatch ≠ env.entry.etagValue)
    (hrd : env.getReaderErr = false) :
    headerBeforeBody (handleGetRequest h env) "Content-Disposition"
      (dispositionValue
        (if h.whitelistedContentTypes.any (fun v => eqFold v env.entry.contentType)
         then "inline" else "attachment")
        env.entry.filename) = true := by
  obtain ⟨i, hi⟩ := Option.isSome_iff_exists.mp hstrip
  have hbeq : (headerGet env.ifNoneMatch == env.entry.etagValue) = false := by
    exact beq_eq_false_iff_ne.mpr hnm
  simp [handleGetRequest, hi, hlk, hfound, hbeq, hrd, headerBeforeBody,
    decideDisposition]

/-- C3 witness: with whitelist `[image/png]` and entry content type
`image/png`, the inline disposition header is set before the body. -/
theorem get_disposition_policy_witness :
    headerBeforeBody (handleGetRequest hW envGetW) "Content-Disposition"
      (dispositionValue
        (if hW.whitelistedContentTypes.any
            (fun v => eqFold v envGetW.entry.contentType)
         then "inline" else "attachment")
        envGetW.entry.filename) = true :=
  get_disposition_policy hW envGetW (by decide) rfl rfl (by decide) rfl

/-- C4: for every download of a found entry whose If-None-Match header is
present and exactly equal to the entry's ETag, the handler's whole trace is
a bare 304 status: no body of either kind and no reader acquisition. -/
theorem get_ifNoneMatch_304 (h : Handler) (env : GetEnv)
    (hstrip : (stripId env.pathId).isSome = true)
    (hlk : env.lookupErr = false)
    (hfound : env.found = true)
    (hm : env.ifNoneMatch = some env.entry.etagValue) :
    handleGetRequest h env = [Ev.status 304] ∧
    bodies (handleGetRequest h env) = [] ∧
    bodyChunks (handleGetRequest h env) = [] ∧
    Ev.getReader ∉ handleGetRequest h env := by
  obtain ⟨i, hi⟩ := Option.isSome_iff_exists.mp hstrip
  have htr : handleGetRequest h env = [Ev.status 304] := by
    simp [handleGetRequest, hi, hlk, hfound, hm, headerGet]
  refine ⟨htr, ?_, ?_, ?_⟩ <;> rw [htr] <;> decide

/-- C4 witness: a concrete conditional GET supplying the stored ETag gets a
bare 304. -/
theorem get_ifNoneMatch_304_witness :
    handleGetRequest hW envGet304 = [Ev.status 304] ∧
    bodies (handleGetRequest hW envGet304) = [] ∧
    bodyChunks (handleGetRequest hW envGet304) = [] ∧
    Ev.getReader ∉ handleGetRequest hW envGet304 :=
  get_ifNoneMatch_304 hW envGet304 (by decide) rfl rfl rfl

/-- C10: an absent If-None-Match header is read as the empty string, so for
every found entry whose ETag is the empty string, a GET without the header
is answered by a bare 304: no body and no reader acquisition, instead of
the stored bytes. -/
theorem get_absentHeader_emptyEtag_304 (h : Handler) (env : GetEnv)
    (hstrip : (stripId env.pathId).isSome = true)
    (hlk : env.lookupErr = false)
    (hfound : env.found = true)
    (hm : env.ifNoneMatch = none)
    (he : env.entry.etagValue = "") :
    handleGetRequest h env = [Ev.status 304] ∧
    bodies (handleGetRequest h env) = [] ∧
    bodyChunks (handleGetRequest h env) = [] ∧
    Ev.getReader ∉ handleGetRequest h env := by
  obtain ⟨i, hi⟩ := Option.isSome_iff_exists.mp hstrip
  have htr : handleGetRequest h env = [Ev.status 304] := by
    simp [handleGetRequest, hi, hlk, hfound, hm, he, headerGet]
  refine ⟨htr, ?_, ?_, ?_⟩ <;> rw [htr] <;> decide

/-- C10 witness: a concrete GET with no If-None-Match on an entry whose
ETag is empty returns a bare 304 and never opens the reader. -/
theorem get_absentHeader_emptyEtag_304_witness :
    handleGetRequest hW envGetEmptyEtag = [Ev.status 304] ∧
    bodies (handleGetRequest hW envGetEmptyEtag) = [] ∧
    bodyChunks (handleGetRequest hW envGetEmptyEtag) = [] ∧
    Ev.getReader ∉ handleGetRequest hW envGetEmptyEtag :=
  get_absentHeader_emptyEtag_304 hW envGetEmptyEtag (by decide) rfl rfl rfl rfl

/-- C2: contrary to the claim, a dotless input reaches an out-of-range
index in both derivations: on path id `noext` the download handler's
`id[:strings.LastIndex(id, ".")]` slices at `-1` and panics (trace is a
bare fault, no error response), and the upload extension slice is likewise
undefined on filename `noext`. -/
theorem noDot_out_of_range_fault :
    handleGetRequest hW envGetNoDot = [Ev.fault] ∧
    stripId "noext" = none ∧
    deriveExt "noext" = none := by
  refine ⟨?_, ?_, ?_⟩ <;> decide

/-- C5 counterexample: with the buffer size configured to 2 bytes, a single
3-byte part drives the upload path's intermediate buffer to 3 bytes — the
bound claimed for the externally configured buffer size is violated, and
the whole uploaded file sits in the buffer at once. -/
theorem upload_buffer_exceeds_configured_cex :
    hSmall.bufferSize = 2 ∧
    ¬ bufferPeak (handleUploadRequest hSmall envBig) ≤ hSmall.bufferSize := by
  refine ⟨rfl, ?_⟩
  decide

/-- C5 amended: during upload each part is first accumulated whole in the
in-memory buffer and then passed to the write sink as a single chunk, so
the intermediate buffer's peak occupancy is at least the full size of every
copied part (the configured `BufferSize` plays no role in the upload
path; it bounds only the download streaming buffer). -/
theorem upload_buffers_whole_part (h : Handler) (env : UploadEnv) (p : Part)
    (rest : List Part)
    (hparts : env.parts = p :: rest)
    (hmt : env.mediaTypeOk = true)
    (hsv : env.saveErr = false)
    (hgw : env.getWriterErr = false)
    (hcopy : p.copyErr = false) :
    Ev.sinkWrite p.content p.sinkErr ∈ handleUploadRequest h env ∧
    p.content.length ≤ bufferPeak (handleUploadRequest h env) := by
  have hmem : Ev.sinkWrite p.content p.sinkErr ∈ handleUploadRequest h env := by
    simp [handleUploadRequest, uploadBody, hparts, hmt, hsv, hgw, partsLoop, hcopy]
  exact ⟨hmem, length_le_bufferPeak _ _ _ hmem⟩

/-- C5 amended witness: the concrete 3-byte part is handed to the sink as
one chunk and the buffer peak reaches its full 3-byte size. -/
theorem upload_buffers_whole_part_witness :
    Ev.sinkWrite partBig.content partBig.sinkErr ∈
      handleUploadRequest hSmall envBig ∧
    partBig.content.length ≤ bufferPeak (handleUploadRequest hSmall envBig) :=
  upload_buffers_whole_part hSmall envBig partBig [] rfl rfl rfl rfl rfl

/-- C6: contrary to the claim, a failing chunk write to the entry's write
sink is not surfaced as 500: the source discards `writer.Write`'s error
(router.go line 85), so a concrete upload whose only sink write errors
still finalizes and responds 200 with the success URL. -/
theorem upload_sinkWriteError_ignored :
    Ev.sinkWrite [7] true ∈ handleUploadRequest hW envSinkErr ∧
    statuses (handleUploadRequest hW envSinkErr) = [200] ∧
    bodies (handleUploadRequest hW envSinkErr) =
      ["http://localhost:8080/abc.png"] := by
  refine ⟨?_, ?_, ?_⟩ <;> decide

/-- C7: contrary to the claim, the download handler never closes its
acquired read source: a concrete successful GET acquires the reader,
streams with status 200, and its trace contains no reader close (the
source has no `Close` call on the reader at all; only the upload path's
writer is closed, by `defer`). -/
theorem get_reader_never_closed :
    Ev.getReader ∈ handleGetRequest hW envGetW ∧
    Ev.closeReader ∉ handleGetRequest hW envGetW ∧
    statuses (handleGetRequest hW envGetW) = [200] := by
  refine ⟨?_, ?_, ?_⟩ <;> decide

end ShareX
